import Mathlib

/-!
Verification of the geomqa repository's own logic: the NIfTI-suffix
stripping helper, the external-tool version gate (vercheck.py), and the
per-input-file path derivation and external-command orchestration of
geomqa.py.  All definitions are shallow embeddings of the Python source;
subprocess and filesystem effects are made explicit parameters.
-/

namespace Geomqa

/-! ## Python `re.sub` semantics for the two fixed patterns

`remove_niigz` in geomqa.py runs
  `re.sub(r"\.nii.gz", "", string, re.I)` and then
  `re.sub(r"\.nii", "", string, re.I)`.
`re.I` is passed positionally as the `count` argument of `re.sub`
(its integer value is 2), so each call performs at most two
replacements and matching is case-sensitive.  In the first pattern the
unescaped `.` matches any character except a newline.  Matching scans
left to right, non-overlapping, replacing each match with the empty
string.  We embed this with a matcher that recognises a pattern at the
head of a character list, and a fuel-driven scanner (fuel starts at the
list length, which bounds the number of scan steps). -/

/-- Head matcher for the regex `\.nii.gz`: a literal `.nii`, then any
character except newline, then literal `gz`; returns the remaining
characters after the match. -/
def matchNiiGz : List Char → Option (List Char)
  | '.' :: 'n' :: 'i' :: 'i' :: c :: 'g' :: 'z' :: rest =>
      if c = '\n' then none else some rest
  | _ => none

/-- Head matcher for the regex `\.nii`: the literal characters `.nii`;
returns the remaining characters after the match. -/
def matchNii : List Char → Option (List Char)
  | '.' :: 'n' :: 'i' :: 'i' :: rest => some rest
  | _ => none

/-- One left-to-right scan of `re.sub(pat, "", s, cnt)`: at each
position try the matcher; on a match, drop the matched characters and
decrement the replacement budget `cnt`; otherwise keep the character
and move on.  `fuel` only bounds recursion and is initialised to the
list length (matches consume at least one character, so this fuel never
runs out on the real entry point). -/
def subAux (m : List Char → Option (List Char)) : Nat → Nat → List Char → List Char
  | 0, _, l => l
  | Nat.succ _, 0, l => l
  | Nat.succ fuel, Nat.succ cnt, l =>
      match m l with
      | some rest => subAux m fuel cnt rest
      | none =>
          match l with
          | [] => []
          | c :: cs => c :: subAux m fuel (Nat.succ cnt) cs

/-- `re.sub(pat, "", s, cnt)` on character lists. -/
def pySub (m : List Char → Option (List Char)) (cnt : Nat) (l : List Char) : List Char :=
  subAux m l.length cnt l

/-- geomqa.py `remove_niigz`: strip the `.nii` / `.nii.gz` suffix from a
filename.  The source passes `re.I` as the positional `count` argument
of `re.sub` (value 2), so each substitution is case-sensitive and
replaces at most two occurrences, anywhere in the string. -/
def remove_niigz (s : String) : String :=
  String.mk (pySub matchNii 2 (pySub matchNiiGz 2 s.data))

example : remove_niigz "a" = "a" := by decide
example : remove_niigz "a.b" = "a.b" := by decide
example : remove_niigz "a.nii" = "a" := by decide
example : remove_niigz "a.nii.gz" = "a" := by decide
example : remove_niigz "mri.nii.gz" = "mri" := by decide
example : remove_niigz ".ni.niii" = ".nii" := by decide
example : remove_niigz ".nii" = "" := by decide
example : remove_niigz "a.NII.GZ" = "a.NII.GZ" := by decide
example : remove_niigz "x.nii.nii.nii" = "x.nii" := by decide
example : remove_niigz "a.niiXgz" = "a" := by decide

/-! ## vercheck.py

Subprocess effects are made explicit: the outcome of an `sp.run` call
is given to the embedded function as a value. -/

/-- Outcome of attempting to run an external command: the executable is
missing from the path (Python raises `FileNotFoundError`), or the
process completed with a return code and captured standard output. -/
inductive ProcOutcome where
  | notFound : ProcOutcome
  | completed : Nat → String → ProcOutcome
deriving DecidableEq

/-- Python `str.strip` whitespace set (space, tab, newline, carriage
return, vertical tab, form feed). -/
def isPySpace (c : Char) : Bool :=
  c == ' ' || c == '\t' || c == '\n' || c == '\r' || c == '\x0b' || c == '\x0c'

/-- Python `str.strip()`: drop leading and trailing whitespace. -/
def pyStrip (l : List Char) : List Char :=
  ((l.dropWhile isPySpace).reverse.dropWhile isPySpace).reverse

/-- Python `str.strip()` on strings. -/
def pyStripStr (s : String) : String :=
  String.mk (pyStrip s.data)

/-- Python `str.splitlines()`: split at line boundaries, which are not
kept; a trailing boundary does not create an extra empty line, and the
empty string yields the empty list. -/
def splitlinesPy : List Char → List (List Char)
  | [] => []
  | '\r' :: '\n' :: cs => [] :: splitlinesPy cs
  | '\n' :: cs => [] :: splitlinesPy cs
  | '\r' :: cs => [] :: splitlinesPy cs
  | c :: cs =>
      match splitlinesPy cs with
      | [] => [[c]]
      | t :: ts => (c :: t) :: ts

/-- Python `str.split(" ")`: split at every single space character,
keeping empty pieces; the empty string yields `[""]`. -/
def splitSp : List Char → List (List Char)
  | [] => [[]]
  | c :: cs =>
      if c = ' ' then [] :: splitSp cs
      else
        match splitSp cs with
        | [] => [[c]]
        | t :: ts => (c :: t) :: ts

example : splitlinesPy "a\nb".data = ["a".data, "b".data] := by decide
example : splitlinesPy "a\n".data = ["a".data] := by decide
example : splitlinesPy "".data = [] := by decide
example : splitSp "a b  c".data = ["a".data, "b".data, "".data, "c".data] := by decide

/-- Result of `get_mrtrix_ver`: either the parsed version string, or a
`sys.exit` with a message written to standard error and an exit code,
or an uncaught Python exception (`CalledProcessError` from
`check=True` on a nonzero return code, `IndexError` from indexing an
empty `splitlines()` result or a too-short token list). -/
inductive MrtrixResult where
  | version : String → MrtrixResult
  | sysExit : String → Nat → MrtrixResult
  | calledProcessError : MrtrixResult
  | indexError : MrtrixResult
deriving DecidableEq

/-- Parse step of vercheck.py `get_mrtrix_ver`: strip the captured
standard output, take its first line (`splitlines()[0]`), split it on
single spaces, and take element 2; `none` models the `IndexError`
raised when either index is out of range. -/
def parse_mrtrix (out : String) : Option String :=
  match splitlinesPy (pyStrip out.data) with
  | [] => none
  | firstLine :: _ =>
      match (splitSp firstLine).get? 2 with
      | none => none
      | some tok => some (String.mk tok)

/-- vercheck.py `get_mrtrix_ver`: run `mrinfo -version` with
`check=True`; if the executable is not found, write a distinguished
message to standard error and `sys.exit(1)`; if it exits nonzero,
`check=True` raises `CalledProcessError`; otherwise parse the third
space-delimited token of the first line of the stripped output. -/
def get_mrtrix_ver : ProcOutcome → MrtrixResult
  | ProcOutcome.notFound =>
      MrtrixResult.sysExit
        "ERROR: mrinfo (an mrtrix command) used to check version is not in your path, exiting\n" 1
  | ProcOutcome.completed rc out =>
      if rc = 0 then
        match parse_mrtrix out with
        | some v => MrtrixResult.version v
        | none => MrtrixResult.indexError
      else MrtrixResult.calledProcessError

/-- Result of `get_niftyreg_ver`: either a raised `FileNotFoundError`
with its message, or the returned version string. -/
inductive NiftyregResult where
  | fileNotFoundError : String → NiftyregResult
  | version : String → NiftyregResult
deriving DecidableEq

/-- vercheck.py `get_niftyreg_ver`: if the niftyreg directory is not a
directory, raise `FileNotFoundError("niftyreg not found")` before
running anything; otherwise run `reg_aladin -version` (no `check`, so
the return code is ignored) and return the stripped standard output. -/
def get_niftyreg_ver (dirIsDir : Bool) (regAladinStdout : String) : NiftyregResult :=
  if !dirIsDir then NiftyregResult.fileNotFoundError "niftyreg not found"
  else NiftyregResult.version (pyStripStr regAladinStdout)

/-- Observable behaviour of `check_lib_ver`: lines printed to standard
output, lines written to standard error, and the `sys.exit` code if the
call terminates the process (`none` when it returns normally). -/
structure CheckResult where
  stdout : List String
  stderr : List String
  exitCode : Option Nat
deriving DecidableEq

/-- vercheck.py `check_lib_ver`: exact (case-sensitive) membership of
the actual version in the expected list prints a PASS line and returns;
otherwise a FAIL line and an expected/got line are printed, and unless
`any_ver` is set the process exits with code 1 after writing
`** exiting` to standard error. -/
def check_lib_ver (lib_name lib_ver : String) (expected_lib_ver_list : List String)
    (any_ver : Bool) : CheckResult :=
  if lib_ver ∈ expected_lib_ver_list then
    { stdout := ["** PASS version check on " ++ lib_name ++ " (" ++ lib_ver ++ ")"],
      stderr := [], exitCode := none }
  else
    let failLines :=
      ["** FAIL using non-validated " ++ lib_name ++ " version",
       "*** expected " ++ String.intercalate " or " expected_lib_ver_list ++ ", got " ++ lib_ver]
    if any_ver then { stdout := failLines, stderr := [], exitCode := none }
    else { stdout := failLines, stderr := ["** exiting\n"], exitCode := some 1 }

example :
    check_lib_ver "lib_a" "2.0.0" ["1.0.0", "1.0.1"] false =
      { stdout := ["** FAIL using non-validated lib_a version",
                   "*** expected 1.0.0 or 1.0.1, got 2.0.0"],
        stderr := ["** exiting\n"], exitCode := some 1 } := by decide

example :
    check_lib_ver "lib_a" "2.0.0" ["1.0.0", "2.0.0"] true =
      { stdout := ["** PASS version check on lib_a (2.0.0)"],
        stderr := [], exitCode := none } := by decide

example : get_mrtrix_ver (ProcOutcome.completed 0 "== mrinfo 3.0.1-26-g0f28beae ==\nother") =
    MrtrixResult.version "3.0.1-26-g0f28beae" := by decide

/-! ## geomqa.py main: per-input-file path derivation

`main` builds, for each input file, a results directory
`out_dp / remove_niigz(mri_fp.name)`, ten paths inside it, and one
figure path directly under `out_dp`.  Paths are modelled as strings
joined with `/` (the semantics of `pathlib`'s `/` operator for
relative child names). -/

/-- geomqa.py `results_dp`: the per-job results directory,
`out_dp / remove_niigz(mri_fp.name)`. -/
def results_dp (o n : String) : String :=
  o ++ "/" ++ remove_niigz n

/-- Path of the `ct.nii.gz` symlink created inside the job directory. -/
def ct_lnk_fp (o n : String) : String := results_dp o n ++ "/" ++ "ct.nii.gz"

/-- Output volume of the rigid registration. -/
def rigid_fp (o n : String) : String := results_dp o n ++ "/" ++ "mr2ct_rigid.nii.gz"

/-- Affine transform file written by the rigid registration. -/
def affine_fp (o n : String) : String := results_dp o n ++ "/" ++ "mr2ct_rigid.aff"

/-- Output volume of the non-rigid registration. -/
def nonrigid_fp (o n : String) : String := results_dp o n ++ "/" ++ "mr2ct_nonrigid.nii.gz"

/-- Control-point grid written by the non-rigid registration. -/
def cpp_fp (o n : String) : String := results_dp o n ++ "/" ++ "mr2ct_cpp.nii.gz"

/-- Dense displacement field in CT space. -/
def disp_field_fp (o n : String) : String := results_dp o n ++ "/" ++ "displ_field_ct.nii.gz"

/-- Magnitude of the displacement field in CT space. -/
def mag_displ_field_ct_fp (o n : String) : String :=
  results_dp o n ++ "/" ++ "mag_displ_field_ct.nii.gz"

/-- Composed forward MRI-to-CT deformation field. -/
def mr2ct_deformation_fp (o n : String) : String :=
  results_dp o n ++ "/" ++ "mr2ct_deformation.nii.gz"

/-- Inverted CT-to-MRI deformation field. -/
def ct2mr_deformation_fp (o n : String) : String :=
  results_dp o n ++ "/" ++ "ct2mr_deformation.nii.gz"

/-- Displacement-field magnitude resampled into MRI space. -/
def mag_displ_field_mri_fp (o n : String) : String :=
  results_dp o n ++ "/" ++ "mag_displ_field_mri.nii.gz"

/-- Figure path, placed directly under the output directory:
`out_dp / (remove_niigz(mri_fp.name) + "_distortion_results.pdf")`. -/
def fig_fp (o n : String) : String :=
  o ++ "/" ++ (remove_niigz n ++ "_distortion_results.pdf")

/-- The fixed file names created inside the per-job results directory,
in the order the source assigns them. -/
def innerNames : List String :=
  ["ct.nii.gz", "mr2ct_rigid.nii.gz", "mr2ct_rigid.aff", "mr2ct_nonrigid.nii.gz",
   "mr2ct_cpp.nii.gz", "displ_field_ct.nii.gz", "mag_displ_field_ct.nii.gz",
   "mr2ct_deformation.nii.gz", "ct2mr_deformation.nii.gz", "mag_displ_field_mri.nii.gz"]

/-- All eleven derived paths of the job for output directory `o` and
input filename `n`: the ten files inside the job directory and the
figure under the top-level output directory. -/
def jobPaths (o n : String) : List String :=
  innerNames.map (fun f => o ++ "/" ++ remove_niigz n ++ "/" ++ f) ++ [fig_fp o n]

example :
    jobPaths "out" "mri.nii.gz" =
      ["out/mri/ct.nii.gz", "out/mri/mr2ct_rigid.nii.gz", "out/mri/mr2ct_rigid.aff",
       "out/mri/mr2ct_nonrigid.nii.gz", "out/mri/mr2ct_cpp.nii.gz",
       "out/mri/displ_field_ct.nii.gz", "out/mri/mag_displ_field_ct.nii.gz",
       "out/mri/mr2ct_deformation.nii.gz", "out/mri/ct2mr_deformation.nii.gz",
       "out/mri/mag_displ_field_mri.nii.gz", "out/mri_distortion_results.pdf"] := by decide

/-! ## geomqa.py main: external command construction

The fixed per-file command sequence, mirroring the `*_cmd` lists of
`main`.  A `Ctx` carries the run parameters: the niftyreg directory,
the package directory holding the bundled CT reference and mask, the
resolved input path, the output directory, and the input's basename. -/

/-- Run parameters of one job in `main`. -/
structure Ctx where
  niftyreg : String
  pkgdir : String
  mri : String
  out : String
  name : String

/-- Path of the `reg_aladin` executable. -/
def reg_aladin_fp (c : Ctx) : String := c.niftyreg ++ "/" ++ "reg_aladin"

/-- Path of the `reg_f3d` executable. -/
def reg_f3d_fp (c : Ctx) : String := c.niftyreg ++ "/" ++ "reg_f3d"

/-- Path of the `reg_resample` executable. -/
def reg_resample_fp (c : Ctx) : String := c.niftyreg ++ "/" ++ "reg_resample"

/-- Path of the `reg_transform` executable. -/
def reg_transform_fp (c : Ctx) : String := c.niftyreg ++ "/" ++ "reg_transform"

/-- Path of the bundled reference CT volume. -/
def ct_fp (c : Ctx) : String := c.pkgdir ++ "/" ++ "ct.nii.gz"

/-- Path of the bundled CT mask volume. -/
def ctmask_fp (c : Ctx) : String := c.pkgdir ++ "/" ++ "ctmask.nii.gz"

/-- geomqa.py `rigid_cmd`: rigid registration of the MRI onto CT. -/
def rigid_cmd (c : Ctx) : List String :=
  [reg_aladin_fp c, "-ref", ct_fp c, "-flo", c.mri, "-rmask", ctmask_fp c,
   "-res", rigid_fp c.out c.name, "-rigOnly", "-aff", affine_fp c.out c.name]

/-- geomqa.py `nonrigid_cmd`: non-rigid registration of the rigid
result onto CT. -/
def nonrigid_cmd (c : Ctx) : List String :=
  [reg_f3d_fp c, "-ref", ct_fp c, "-flo", rigid_fp c.out c.name, "-rmask", ctmask_fp c,
   "-res", nonrigid_fp c.out c.name, "-cpp", cpp_fp c.out c.name,
   "-be", "0.005", "-maxit", "500", "-sx", "15", "-ln", "4", "-lp", "2"]

/-- geomqa.py `mrview_cmd`: the detached visual-inspection viewer. -/
def mrview_cmd (c : Ctx) : List String :=
  ["mrview", ct_fp c, "-voxel", "271,257,134", "-mode", "2",
   "-intensity_range", "1000,1500",
   "-overlay.load", rigid_fp c.out c.name, "-overlay.opacity", "0.6",
   "-overlay.colour", "1,0,0", "-overlay.intensity", "200,4095",
   "-overlay.threshold_min", "200",
   "-overlay.load", nonrigid_fp c.out c.name, "-overlay.opacity", "0.6",
   "-overlay.colour", "0,0,1", "-overlay.intensity", "200,4095",
   "-overlay.threshold_min", "200"]

/-- geomqa.py `disp_cmd`: convert the control-point grid to a dense
displacement field in CT space. -/
def disp_cmd (c : Ctx) : List String :=
  [reg_transform_fp c, "-ref", ct_fp c, "-disp", cpp_fp c.out c.name,
   disp_field_fp c.out c.name]

/-- geomqa.py `mag_displ_field_cmd`: per-voxel Euclidean norm of the
displacement field. -/
def mag_displ_field_cmd (c : Ctx) : List String :=
  ["mrmath", "-axis", "4", disp_field_fp c.out c.name, "norm",
   mag_displ_field_ct_fp c.out c.name]

/-- geomqa.py `compose_cmd`: compose the rigid affine with the
control-point grid into the forward deformation field. -/
def compose_cmd (c : Ctx) : List String :=
  [reg_transform_fp c, "-ref", ct_fp c, "-comp", affine_fp c.out c.name,
   cpp_fp c.out c.name, mr2ct_deformation_fp c.out c.name]

/-- geomqa.py `invert_cmd`: invert the forward deformation, with the
original MRI as the geometric reference of the inverse. -/
def invert_cmd (c : Ctx) : List String :=
  [reg_transform_fp c, "-ref", ct_fp c, "-invNrr", mr2ct_deformation_fp c.out c.name,
   c.mri, ct2mr_deformation_fp c.out c.name]

/-- geomqa.py `resample_cmd`: resample the CT-space magnitude into MRI
space through the inverse deformation, linear interpolation. -/
def resample_cmd (c : Ctx) : List String :=
  [reg_resample_fp c, "-ref", c.mri, "-flo", mag_displ_field_ct_fp c.out c.name,
   "-trans", ct2mr_deformation_fp c.out c.name, "-res", mag_displ_field_mri_fp c.out c.name,
   "-inter", "1"]

/-- The blocking external calls of `main`, in execution order: each is
run with `sp.run(cmd, check=True)` and awaited. -/
def blocking_cmds (c : Ctx) : List (List String) :=
  [rigid_cmd c, nonrigid_cmd c, disp_cmd c, mag_displ_field_cmd c,
   compose_cmd c, invert_cmd c, resample_cmd c]

/-- The detached calls of `main`: the single `sp.Popen(mrview_cmd)`
whose exit status and output are never observed. -/
def background_cmds (c : Ctx) : List (List String) :=
  [mrview_cmd c]

/-- Python exceptions that `main` can raise during job setup. -/
inductive PyError where
  | fileExistsError : PyError
deriving DecidableEq

/-- Processing of one input file by `main`, given the entries already
present in the job's results directory.  `mkdir(parents, exist_ok)`
never fails; then `ct_lnk_fp.symlink_to(ct_fp)` raises
`FileExistsError` when an entry named `ct.nii.gz` already exists, in
which case no external command has been issued.  Otherwise the blocking
commands run in order (assumed to exit zero) and the viewer is
spawned.  Returns the blocking commands executed, the detached commands
spawned, and the raised error if any. -/
def process_one (existing : List String) (c : Ctx) :
    List (List String) × List (List String) × Option PyError :=
  if "ct.nii.gz" ∈ existing then ([], [], some PyError.fileExistsError)
  else (blocking_cmds c, background_cmds c, none)

/-! ## Supporting lemmas about the substitution scanner -/

/-- Characters of the result of a substitution scan all come from the
input, provided the matcher only returns parts of its argument. -/
theorem subAux_subset (m : List Char → Option (List Char))
    (hm : ∀ x r, m x = some r → ∀ a, a ∈ r → a ∈ x) :
    ∀ (fuel cnt : Nat) (l : List Char) (a : Char), a ∈ subAux m fuel cnt l → a ∈ l := by
  intro fuel
  induction fuel with
  | zero => intro cnt l a h; simpa [subAux] using h
  | succ fuel ih =>
    intro cnt l a h
    cases cnt with
    | zero => simpa [subAux] using h
    | succ cnt =>
      simp only [subAux] at h
      split at h
      · next rest hml => exact hm l rest hml a (ih cnt rest a h)
      · split at h
        · simp at h
        · next c cs hml2 =>
          rcases List.mem_cons.mp h with h | h
          · exact h ▸ List.mem_cons_self c cs
          · exact List.mem_cons_of_mem c (ih (Nat.succ cnt) cs a h)

/-- If the matcher fails on every suffix of the input, a substitution
scan leaves the input unchanged. -/
theorem subAux_id_of_none (m : List Char → Option (List Char)) :
    ∀ (fuel cnt : Nat) (l : List Char),
      (∀ t : List Char, t <:+ l → m t = none) → subAux m fuel cnt l = l := by
  intro fuel
  induction fuel with
  | zero => intro cnt l _; simp [subAux]
  | succ fuel ih =>
    intro cnt l hnone
    cases cnt with
    | zero => simp [subAux]
    | succ cnt =>
      simp only [subAux]
      rw [hnone l (List.suffix_refl l)]
      cases l with
      | nil => rfl
      | cons c cs =>
        have htail : ∀ t : List Char, t <:+ cs → m t = none :=
          fun t ht => hnone t (ht.trans (List.suffix_cons c cs))
        simpa using ih (Nat.succ cnt) cs htail

/-- A successful `matchNii` consumes the four pattern characters: the
remainder's characters are characters of the input. -/
theorem matchNii_subset (x r : List Char) (h : matchNii x = some r) :
    ∀ a, a ∈ r → a ∈ x := by
  unfold matchNii at h
  split at h
  · next rest =>
    intro a ha
    simp only [Option.some.injEq] at h
    subst h
    simp [ha]
  · exact absurd h (by simp)

/-- A successful `matchNiiGz` consumes the seven pattern characters:
the remainder's characters are characters of the input. -/
theorem matchNiiGz_subset (x r : List Char) (h : matchNiiGz x = some r) :
    ∀ a, a ∈ r → a ∈ x := by
  unfold matchNiiGz at h
  split at h
  · next c rest =>
    intro a ha
    split at h
    · exact absurd h (by simp)
    · simp only [Option.some.injEq] at h
      subst h
      simp [ha]
  · exact absurd h (by simp)

/-- Wherever `matchNiiGz` succeeds, `matchNii` succeeds too (the
longer pattern starts with the shorter one). -/
theorem matchNiiGz_some_matchNii (x r : List Char) (h : matchNiiGz x = some r) :
    ∃ r2, matchNii x = some r2 := by
  unfold matchNiiGz at h
  split at h
  · next c rest => exact ⟨c :: 'g' :: 'z' :: rest, rfl⟩
  · exact absurd h (by simp)

/-- Scan predicate: does the literal pattern `.nii` occur anywhere in
the character list? -/
def containsDotNii : List Char → Bool
  | [] => false
  | c :: cs => (matchNii (c :: cs)).isSome || containsDotNii cs

/-- If `.nii` occurs nowhere in `l`, then `matchNii` fails on every
suffix of `l`. -/
theorem matchNii_none_of_not_contains (l : List Char) (h : containsDotNii l = false) :
    ∀ t : List Char, t <:+ l → matchNii t = none := by
  induction l with
  | nil =>
    intro t ht
    rw [List.suffix_nil.mp ht]
    rfl
  | cons c cs ih =>
    simp only [containsDotNii, Bool.or_eq_false_iff] at h
    intro t ht
    rcases List.suffix_cons_iff.mp ht with ht | ht
    · subst ht
      exact Option.not_isSome_iff_eq_none.mp (by simp [h.1])
    · exact ih h.2 t ht

/-- If `.nii` occurs nowhere in `l`, then `matchNiiGz` also fails on
every suffix of `l`. -/
theorem matchNiiGz_none_of_not_contains (l : List Char) (h : containsDotNii l = false) :
    ∀ t : List Char, t <:+ l → matchNiiGz t = none := by
  intro t ht
  cases hgz : matchNiiGz t with
  | none => rfl
  | some r =>
    obtain ⟨r2, hr2⟩ := matchNiiGz_some_matchNii t r hgz
    rw [matchNii_none_of_not_contains l h t ht] at hr2
    exact absurd hr2 (by simp)

/-- If the input contains no occurrence of `.nii`, `remove_niigz`
returns it unchanged. -/
theorem remove_niigz_eq_of_not_contains (s : String) (h : containsDotNii s.data = false) :
    remove_niigz s = s := by
  unfold remove_niigz pySub
  rw [subAux_id_of_none matchNiiGz _ _ _ (matchNiiGz_none_of_not_contains s.data h),
    subAux_id_of_none matchNii _ _ _ (matchNii_none_of_not_contains s.data h)]

/-- Every character of `remove_niigz s` is a character of `s` (the
substitutions only delete characters). -/
theorem remove_niigz_subset (s : String) (a : Char) (h : a ∈ (remove_niigz s).data) :
    a ∈ s.data := by
  unfold remove_niigz pySub at h
  exact subAux_subset matchNiiGz matchNiiGz_subset _ _ _ a
    (subAux_subset matchNii matchNii_subset _ _ _ a h)

/-! ## Supporting lemmas about path components -/

/-- Two slash-free path components followed by a slash are recovered
uniquely from the joined string. -/
theorem slashfree_append_inj :
    ∀ (a b u v : List Char), '/' ∉ a → '/' ∉ b →
      a ++ '/' :: u = b ++ '/' :: v → a = b ∧ u = v := by
  intro a
  induction a with
  | nil =>
    intro b u v _ hb h
    cases b with
    | nil =>
      simp only [List.nil_append, List.cons.injEq] at h
      exact ⟨rfl, h.2⟩
    | cons d ds =>
      simp only [List.nil_append, List.cons_append, List.cons.injEq] at h
      exact absurd (h.1 ▸ List.mem_cons_self d ds) hb
  | cons c cs ih =>
    intro b u v ha hb h
    cases b with
    | nil =>
      simp only [List.cons_append, List.nil_append, List.cons.injEq] at h
      exact absurd (h.1 ▸ List.mem_cons_self c cs) ha
    | cons d ds =>
      simp only [List.cons_append, List.cons.injEq] at h
      obtain ⟨h1, h2⟩ := h
      obtain ⟨h3, h4⟩ := ih ds u v (fun hm => ha (List.mem_cons_of_mem c hm))
        (fun hm => hb (List.mem_cons_of_mem d hm)) h2
      exact ⟨by rw [h1, h3], h4⟩

/-- Unfolding of string concatenation to character lists. -/
theorem string_data_append (s t : String) : (s ++ t).data = s.data ++ t.data := rfl

/-! ## Supporting lemmas about `str.split(" ")` -/

/-- Splitting a space-free string on spaces yields that single piece. -/
theorem splitSp_of_no_space (a : List Char) (ha : ' ' ∉ a) : splitSp a = [a] := by
  induction a with
  | nil => rfl
  | cons c cs ih =>
    have hc : ¬ c = ' ' := fun e => ha (e ▸ List.mem_cons_self c cs)
    simp only [splitSp, if_neg hc, ih (fun hm => ha (List.mem_cons_of_mem c hm))]

/-- Splitting at the first space after a space-free piece peels that
piece off. -/
theorem splitSp_append (a b : List Char) (ha : ' ' ∉ a) :
    splitSp (a ++ ' ' :: b) = a :: splitSp b := by
  induction a with
  | nil => simp [splitSp]
  | cons c cs ih =>
    have hc : ¬ c = ' ' := fun e => ha (e ▸ List.mem_cons_self c cs)
    rw [List.cons_append]
    simp only [splitSp, if_neg hc, ih (fun hm => ha (List.mem_cons_of_mem c hm))]

/-! ## Claim theorems -/

/-- C1: `check_lib_ver` returns normally printing exactly the PASS line
if and only if the actual version string is an exact, case-sensitive
member of the allowed-versions list; otherwise it prints the FAIL line
and the expected/got line listing the allowed set and the actual value,
and exits with the nonzero code 1 if and only if the permissive flag is
false (with the flag true it returns normally after the FAIL lines). -/
theorem c1_check_lib_ver (lib_name lib_ver : String) (exp : List String) (any_ver : Bool) :
    (((check_lib_ver lib_name lib_ver exp any_ver).exitCode = none ∧
      (check_lib_ver lib_name lib_ver exp any_ver).stdout =
        ["** PASS version check on " ++ lib_name ++ " (" ++ lib_ver ++ ")"]) ↔
      lib_ver ∈ exp) ∧
    (lib_ver ∉ exp →
      (check_lib_ver lib_name lib_ver exp any_ver).stdout =
        ["** FAIL using non-validated " ++ lib_name ++ " version",
         "*** expected " ++ String.intercalate " or " exp ++ ", got " ++ lib_ver] ∧
      ((check_lib_ver lib_name lib_ver exp any_ver).exitCode = some 1 ↔ any_ver = false) ∧
      ((check_lib_ver lib_name lib_ver exp any_ver).exitCode = none ↔ any_ver = true)) := by
  by_cases hm : lib_ver ∈ exp
  · exact ⟨by simp [check_lib_ver, hm], fun h => absurd hm h⟩
  · constructor
    · simp only [check_lib_ver, if_neg hm]
      cases any_ver <;> simp [hm]
    · intro _
      cases any_ver <;> simp [check_lib_ver, hm]

/-- Witness for C1 at the spec's concrete inputs: a non-member version
with the permissive flag off prints the FAIL and expected/got lines and
exits with code 1. -/
theorem c1_check_lib_ver_witness :
    (check_lib_ver "lib_a" "2.0.0" ["1.0.0", "1.0.1"] false).stdout =
      ["** FAIL using non-validated lib_a version",
       "*** expected 1.0.0 or 1.0.1, got 2.0.0"] ∧
    (check_lib_ver "lib_a" "2.0.0" ["1.0.0", "1.0.1"] false).exitCode = some 1 := by
  have h := (c1_check_lib_ver "lib_a" "2.0.0" ["1.0.0", "1.0.1"] false).2 (by decide)
  exact ⟨h.1.trans (by decide), h.2.1.mpr rfl⟩

/-- C2 counterexample: the derivation of job paths is not injective
across distinct input filenames: the distinct inputs `a.nii` and
`a.nii.gz` strip to the same stem, so all their derived paths
coincide. -/
theorem c2_distinct_inputs_collide :
    ("a.nii" : String) ≠ "a.nii.gz" ∧
      jobPaths "out" "a.nii" = jobPaths "out" "a.nii.gz" := by decide

/-- C2 amended: the derived job paths are deterministic functions of
the output directory and the stripped input filename, and derivations
for two slash-free input filenames with distinct stripped stems never
collide (distinct filenames with equal stems, such as `a.nii` and
`a.nii.gz`, do collide). -/
theorem c2_no_collision_distinct_stems (o n1 n2 : String)
    (h1 : '/' ∉ n1.data) (h2 : '/' ∉ n2.data)
    (hne : remove_niigz n1 ≠ remove_niigz n2) :
    List.Disjoint (jobPaths o n1) (jobPaths o n2) := by
  have hs1 : '/' ∉ (remove_niigz n1).data := fun hm => h1 (remove_niigz_subset n1 '/' hm)
  have hs2 : '/' ∉ (remove_niigz n2).data := fun hm => h2 (remove_niigz_subset n2 '/' hm)
  have hsfx : '/' ∉ ("_distortion_results.pdf" : String).data := by decide
  have inner_data : ∀ s f : String,
      (o ++ "/" ++ s ++ "/" ++ f).data = o.data ++ '/' :: (s.data ++ '/' :: f.data) := by
    intro s f
    have hsl : ("/" : String).data = ['/'] := rfl
    simp [string_data_append, hsl, List.append_assoc]
  have fig_data : ∀ n : String,
      (fig_fp o n).data =
        o.data ++ '/' :: ((remove_niigz n).data ++ ("_distortion_results.pdf" : String).data) := by
    intro n
    have hsl : ("/" : String).data = ['/'] := rfl
    simp [fig_fp, string_data_append, hsl, List.append_assoc]
  intro p hp hq
  simp only [jobPaths, List.mem_append, List.mem_map, List.mem_singleton] at hp hq
  rcases hp with ⟨f1, _, hpe⟩ | hpe <;> rcases hq with ⟨f2, _, hqe⟩ | hqe
  · -- both inside the two job directories
    have hd := congrArg String.data (hpe.trans hqe.symm)
    rw [inner_data, inner_data] at hd
    have hd2 := List.append_cancel_left hd
    simp only [List.cons.injEq, true_and] at hd2
    exact hne (congrArg String.mk
      (slashfree_append_inj _ _ _ _ hs1 hs2 hd2).1)
  · -- job-directory path versus the other job's figure path
    have hd := congrArg String.data (hpe.trans hqe)
    rw [inner_data, fig_data] at hd
    have hd2 := List.append_cancel_left hd
    simp only [List.cons.injEq, true_and] at hd2
    have hmem : '/' ∈ (remove_niigz n1).data ++ '/' :: f1.data :=
      List.mem_append_right _ (List.mem_cons_self '/' f1.data)
    rw [hd2] at hmem
    rcases List.mem_append.mp hmem with hmem | hmem
    · exact hs2 hmem
    · exact hsfx hmem
  · -- figure path versus the other job's job-directory path
    have hd := congrArg String.data (hpe.symm.trans hqe.symm)
    rw [fig_data, inner_data] at hd
    have hd2 := List.append_cancel_left hd
    simp only [List.cons.injEq, true_and] at hd2
    have hmem : '/' ∈ (remove_niigz n2).data ++ '/' :: f2.data :=
      List.mem_append_right _ (List.mem_cons_self '/' f2.data)
    rw [← hd2] at hmem
    rcases List.mem_append.mp hmem with hmem | hmem
    · exact hs1 hmem
    · exact hsfx hmem
  · -- the two figure paths
    have hd := congrArg String.data (hpe.symm.trans hqe)
    rw [fig_data, fig_data] at hd
    have hd2 := List.append_cancel_left hd
    simp only [List.cons.injEq, true_and] at hd2
    exact hne (congrArg String.mk (List.append_cancel_right hd2))

/-- Witness for C2 amended: two slash-free filenames with distinct
stems give disjoint derived path sets. -/
theorem c2_no_collision_distinct_stems_witness :
    List.Disjoint (jobPaths "out" "a.nii.gz") (jobPaths "out" "b.nii.gz") :=
  c2_no_collision_distinct_stems "out" "a.nii.gz" "b.nii.gz"
    (by decide) (by decide) (by decide)

/-- C3 counterexample: `remove_niigz` is not idempotent for every
string: it maps `.ni.niii` to `.nii`, which it then maps to the empty
string. -/
theorem c3_not_idempotent :
    remove_niigz (remove_niigz ".ni.niii") ≠ remove_niigz ".ni.niii" := by decide

/-- C3 amended: `remove_niigz` is suffix-aware on the documented
examples, mapping `a` to `a`, `a.b` to `a.b`, `a.nii` to `a` and
`a.nii.gz` to `a`, and it is idempotent on each of those examples
(though not on every string). -/
theorem c3_suffix_aware_examples :
    (remove_niigz "a" = "a" ∧ remove_niigz "a.b" = "a.b" ∧
     remove_niigz "a.nii" = "a" ∧ remove_niigz "a.nii.gz" = "a") ∧
    (remove_niigz (remove_niigz "a") = remove_niigz "a" ∧
     remove_niigz (remove_niigz "a.b") = remove_niigz "a.b" ∧
     remove_niigz (remove_niigz "a.nii") = remove_niigz "a.nii" ∧
     remove_niigz (remove_niigz "a.nii.gz") = remove_niigz "a.nii.gz") := by decide

/-- C4 counterexample: the orchestrator issues seven, not nine,
blocking external-process calls per input file. -/
theorem c4_not_nine_blocking_calls :
    (blocking_cmds ⟨"niftyreg", "pkg", "in/mri.nii.gz", "out", "mri.nii.gz"⟩).length = 7 ∧
    (blocking_cmds ⟨"niftyreg", "pkg", "in/mri.nii.gz", "out", "mri.nii.gz"⟩).length ≠ 9 := by
  decide

/-- C4 amended: for each input file the orchestrator makes exactly
seven sequential blocking external-process calls plus one
fire-and-forget visualization call, and each blocking call after the
first consumes files produced (named as outputs) by earlier blocking
calls. -/
theorem c4_pipeline_structure (c : Ctx) :
    (blocking_cmds c).length = 7 ∧ (background_cmds c).length = 1 ∧
    (rigid_fp c.out c.name ∈ rigid_cmd c ∧ rigid_fp c.out c.name ∈ nonrigid_cmd c) ∧
    (cpp_fp c.out c.name ∈ nonrigid_cmd c ∧ cpp_fp c.out c.name ∈ disp_cmd c) ∧
    (disp_field_fp c.out c.name ∈ disp_cmd c ∧
      disp_field_fp c.out c.name ∈ mag_displ_field_cmd c) ∧
    (affine_fp c.out c.name ∈ rigid_cmd c ∧ affine_fp c.out c.name ∈ compose_cmd c) ∧
    cpp_fp c.out c.name ∈ compose_cmd c ∧
    (mr2ct_deformation_fp c.out c.name ∈ compose_cmd c ∧
      mr2ct_deformation_fp c.out c.name ∈ invert_cmd c) ∧
    (mag_displ_field_ct_fp c.out c.name ∈ mag_displ_field_cmd c ∧
      mag_displ_field_ct_fp c.out c.name ∈ resample_cmd c) ∧
    (ct2mr_deformation_fp c.out c.name ∈ invert_cmd c ∧
      ct2mr_deformation_fp c.out c.name ∈ resample_cmd c) := by
  refine ⟨rfl, rfl, ?_, ?_, ?_, ?_, ?_, ?_, ?_, ?_⟩ <;>
    simp [rigid_cmd, nonrigid_cmd, disp_cmd, mag_displ_field_cmd, compose_cmd,
      invert_cmd, resample_cmd]

/-- C5: for input filename `mri.nii.gz` and output root `out`, the ten
derived paths all resolve under `out/mri/` with the fixed file names,
the figure path is `out/mri_distortion_results.pdf` at the top level,
and all eleven paths are mutually distinct. -/
theorem c5_filesystem_layout :
    jobPaths "out" "mri.nii.gz" =
      ["out/mri/ct.nii.gz", "out/mri/mr2ct_rigid.nii.gz", "out/mri/mr2ct_rigid.aff",
       "out/mri/mr2ct_nonrigid.nii.gz", "out/mri/mr2ct_cpp.nii.gz",
       "out/mri/displ_field_ct.nii.gz", "out/mri/mag_displ_field_ct.nii.gz",
       "out/mri/mr2ct_deformation.nii.gz", "out/mri/ct2mr_deformation.nii.gz",
       "out/mri/mag_displ_field_mri.nii.gz", "out/mri_distortion_results.pdf"] ∧
    (jobPaths "out" "mri.nii.gz").Nodup := by decide

/-- C6: when the `mrinfo` executable cannot be located, `get_mrtrix_ver`
writes the distinguished error message to standard error and exits the
process with the nonzero code 1, and in particular never produces a
version for the allow-list comparison. -/
theorem c6_mrinfo_missing_fail_fast :
    get_mrtrix_ver ProcOutcome.notFound =
      MrtrixResult.sysExit
        "ERROR: mrinfo (an mrtrix command) used to check version is not in your path, exiting\n"
        1 ∧
    (∀ v, get_mrtrix_ver ProcOutcome.notFound ≠ MrtrixResult.version v) ∧ (1 : Nat) ≠ 0 := by
  refine ⟨rfl, ?_, by decide⟩
  intro v h
  simp [get_mrtrix_ver] at h

/-- C7: when the niftyreg directory does not exist, `get_niftyreg_ver`
raises the `FileNotFoundError("niftyreg not found")` condition without
consulting the version query at all (its outcome is irrelevant), a
condition distinct from any version value; when the directory exists it
returns the raw stripped standard output of the version query. -/
theorem c7_niftyreg_dir_missing (stdout1 stdout2 : String) :
    get_niftyreg_ver false stdout1 = NiftyregResult.fileNotFoundError "niftyreg not found" ∧
    get_niftyreg_ver true stdout2 = NiftyregResult.version (pyStripStr stdout2) ∧
    (∀ m v, NiftyregResult.fileNotFoundError m ≠ NiftyregResult.version v) := by
  refine ⟨rfl, rfl, ?_⟩
  intro m v h
  exact NiftyregResult.noConfusion h

/-- C8: whenever the stripped version-query output has a first line of
the form `t0 t1 t2 ...` with single spaces between space-free tokens,
`get_mrtrix_ver` on a successful query returns the third token `t2`. -/
theorem c8_mrtrix_version_token (out t0 t1 t2 : String) (r : List Char) (ls : List (List Char))
    (h0 : ' ' ∉ t0.data) (h1 : ' ' ∉ t1.data) (h2 : ' ' ∉ t2.data)
    (hr : r = [] ∨ ∃ m, r = ' ' :: m)
    (hline : splitlinesPy (pyStrip out.data) =
      (t0.data ++ ' ' :: (t1.data ++ ' ' :: (t2.data ++ r))) :: ls) :
    get_mrtrix_ver (ProcOutcome.completed 0 out) = MrtrixResult.version t2 := by
  have hsplit :
      (splitSp (t0.data ++ ' ' :: (t1.data ++ ' ' :: (t2.data ++ r)))).get? 2 =
        some t2.data := by
    rw [splitSp_append _ _ h0, splitSp_append _ _ h1]
    rcases hr with rfl | ⟨m, rfl⟩
    · rw [List.append_nil, splitSp_of_no_space _ h2]
      rfl
    · rw [splitSp_append _ _ h2]
      rfl
  have hparse : parse_mrtrix out = some t2 := by
    unfold parse_mrtrix
    rw [hline]
    show (match (splitSp (t0.data ++ ' ' :: (t1.data ++ ' ' :: (t2.data ++ r)))).get? 2 with
          | none => none
          | some tok => some (String.mk tok)) = some t2
    rw [hsplit]
  simp [get_mrtrix_ver, hparse]

/-- Witness for C8 at the banner format documented in the source. -/
theorem c8_mrtrix_version_token_witness :
    get_mrtrix_ver (ProcOutcome.completed 0 "== mrinfo 3.0.1-26-g0f28beae ==") =
      MrtrixResult.version "3.0.1-26-g0f28beae" :=
  c8_mrtrix_version_token "== mrinfo 3.0.1-26-g0f28beae ==" "==" "mrinfo" "3.0.1-26-g0f28beae"
    (' ' :: '=' :: '=' :: []) [] (by decide) (by decide) (by decide)
    (Or.inr ⟨'=' :: '=' :: [], rfl⟩) (by decide)

/-- C9 counterexample: an input whose `.nii.gz` suffix is mixed-case is
not always returned unchanged: in `a.nii.GZ` the lowercase `.nii`
portion still matches the second substitution, so `remove_niigz` maps
it to `a.GZ`. -/
theorem c9_mixed_case_stripped :
    remove_niigz "a.nii.GZ" ≠ "a.nii.GZ" ∧ remove_niigz "a.nii.GZ" = "a.GZ" := by decide

/-- C9 amended: NIfTI-suffix stripping is case-sensitive at the level
of the `.nii` pattern: any string containing no lowercase occurrence of
`.nii` anywhere (in particular one whose suffix is wholly upper-case,
like `a.NII.GZ`, or mixed-case within the `.nii` portion, like
`a.Nii.gz`) is returned unchanged by `remove_niigz`; a mixed-case
suffix whose `.nii` portion is lowercase (like `a.nii.GZ`) is
partially stripped. -/
theorem c9_case_sensitive :
    (∀ s : String, containsDotNii s.data = false → remove_niigz s = s) ∧
    remove_niigz "a.NII.GZ" = "a.NII.GZ" ∧ remove_niigz "a.Nii.gz" = "a.Nii.gz" ∧
    remove_niigz "a.NII" = "a.NII" :=
  ⟨fun s h => remove_niigz_eq_of_not_contains s h, by decide, by decide, by decide⟩

/-- Witness for C9 at a concrete upper-case input. -/
theorem c9_case_sensitive_witness :
    containsDotNii ("b.NII.GZ" : String).data = false ∧
      remove_niigz "b.NII.GZ" = "b.NII.GZ" :=
  ⟨by decide, c9_case_sensitive.1 "b.NII.GZ" (by decide)⟩

/-- C10: when the job's results directory already contains an entry
named `ct.nii.gz`, processing the input file raises `FileExistsError`
at the symlink-creation step, with no external command issued before
the failure. -/
theorem c10_existing_ct_symlink_aborts (existing : List String) (c : Ctx)
    (h : "ct.nii.gz" ∈ existing) :
    process_one existing c = ([], [], some PyError.fileExistsError) := by
  simp [process_one, h]

/-- Witness for C10 with a directory that already holds the symlink. -/
theorem c10_existing_ct_symlink_aborts_witness :
    process_one ["ct.nii.gz"] ⟨"niftyreg", "pkg", "in/mri.nii.gz", "out", "mri.nii.gz"⟩ =
      ([], [], some PyError.fileExistsError) :=
  c10_existing_ct_symlink_aborts ["ct.nii.gz"]
    ⟨"niftyreg", "pkg", "in/mri.nii.gz", "out", "mri.nii.gz"⟩ (by decide)

end Geomqa
